import Mathlib

/-!
Verification of the vMix-to-EmberPlus bridge (`bridge.js`).

This file gives a shallow embedding of the bridge's core logic:
the invocation-to-command router (`onInvocation`), the set-value
passthrough (`onSetValue`), the CRLF line decoder, the TALLY and
ACTS line handlers, and the connection supervisor (connect,
subscribe, reconnect with back-off), together with theorems about
their behaviour.
-/

namespace VMixBridge

/-! ## Command router (`functionCommandMapping` and `s.onInvocation`) -/

/-- Mapping from function identifier to the command that should be sent
to vMix, as the association list literal from the source. -/
def functionCommandMapping : List (String × String) :=
  [("Auto Mix 1", "FUNCTION CUT"),
   ("Stinger 1", "FUNCTION STINGER1"),
   ("Stinger 2", "FUNCTION STINGER2"),
   ("Stinger 3", "FUNCTION STINGER3"),
   ("Stinger 4", "FUNCTION STINGER4"),
   ("Transition 1", "FUNCTION TRANSITION1"),
   ("Transition 2", "FUNCTION TRANSITION2"),
   ("Transition 3", "FUNCTION TRANSITION3"),
   ("Transition 4", "FUNCTION TRANSITION4")]

/-- The vMix TCP socket as seen by the invocation handler: the only
attribute the handler consults is whether the socket is writable. -/
structure VmixSocket where
  writable : Bool
deriving DecidableEq

/-- Result object returned by the invocation handler: the invocation id,
the success flag, and the optional error message. -/
structure InvocationResult where
  id : Nat
  success : Bool
  error : Option String
deriving DecidableEq

/-- The invocation handler `s.onInvocation`.  Inputs: the current value of
the global `vmixConnection` (null or a socket), the invoked function's
identifier, and the invocation id.  Output: the result object and the
list of strings written to the socket.  Mirrors the branch structure of
the source: a mapped command with a writable connection is written with
CRLF appended; a mapped command without one yields a failure result; an
unmapped identifier yields the default success result with no write. -/
def onInvocation (vmixConnection : Option VmixSocket) (identifier : String)
    (invocationId : Nat) : InvocationResult × List String :=
  match List.lookup identifier functionCommandMapping with
  | some command =>
    match vmixConnection with
    | some sock =>
      if sock.writable then
        ({ id := invocationId, success := true, error := none }, [command ++ "\r\n"])
      else
        ({ id := invocationId, success := false,
           error := some ("vMix connection not available.") }, [])
    | none =>
      ({ id := invocationId, success := false,
         error := some ("vMix connection not available.") }, [])
  | none => ({ id := invocationId, success := true, error := none }, [])

/-! ## Set-value passthrough (`s.onSetValue`) -/

/-- The set-value handler `s.onSetValue`: it updates the addressed node's
state to the requested value via `s.update(node, { value })` and returns
`true`.  The tree parameter state is modelled as a map from node ids to
values; the value type is arbitrary since no validation is performed. -/
def onSetValue {α : Type} (state : Nat → α) (node : Nat) (value : α) :
    (Nat → α) × Bool :=
  (Function.update state node value, true)

/-! ## Theorems for the command router -/

/-- C3: for every function invocation: an identifier absent from the
command mapping reports success and writes nothing; an identifier present
in the mapping with an active writable connection writes exactly the
mapped command followed by CRLF once and reports success (in particular
"Stinger 2" writes exactly "FUNCTION STINGER2\r\n"); an identifier
present in the mapping with no active writable connection reports failure
with the "connection not available" reason and writes nothing. -/
theorem invocation_router_contract :
    (∀ (c : Option VmixSocket) (identifier : String) (n : Nat),
      List.lookup identifier functionCommandMapping = none →
      (onInvocation c identifier n).1.success = true ∧
        (onInvocation c identifier n).2 = []) ∧
    (∀ (identifier command : String) (n : Nat) (sock : VmixSocket),
      List.lookup identifier functionCommandMapping = some command →
      sock.writable = true →
      (onInvocation (some sock) identifier n).2 = [command ++ "\r\n"] ∧
        (onInvocation (some sock) identifier n).1.success = true) ∧
    (∀ (n : Nat),
      (onInvocation (some ⟨true⟩) ("Stinger 2") n).2 = ["FUNCTION STINGER2\r\n"] ∧
        (onInvocation (some ⟨true⟩) ("Stinger 2") n).1.success = true) ∧
    (∀ (c : Option VmixSocket) (identifier command : String) (n : Nat),
      List.lookup identifier functionCommandMapping = some command →
      (c = none ∨ ∃ sock, c = some sock ∧ sock.writable = false) →
      (onInvocation c identifier n).1.success = false ∧
        (onInvocation c identifier n).1.error =
          some ("vMix connection not available.") ∧
        (onInvocation c identifier n).2 = []) := by
  refine ⟨?_, ?_, ?_, ?_⟩
  · intro c identifier n h
    simp [onInvocation, h]
  · intro identifier command n sock h hw
    simp [onInvocation, h, hw]
  · intro n
    constructor <;> rfl
  · intro c identifier command n h hc
    rcases hc with rfl | ⟨sock, rfl, hw⟩
    · simp [onInvocation, h]
    · simp [onInvocation, h, hw]

/-- Witness for C3: concrete instances of each branch of the contract. -/
theorem invocation_router_contract_witness :
    ((onInvocation none ("No Such Function") 7).1.success = true ∧
      (onInvocation none ("No Such Function") 7).2 = []) ∧
    ((onInvocation (some ⟨true⟩) ("Stinger 2") 7).2 = ["FUNCTION STINGER2\r\n"] ∧
      (onInvocation (some ⟨true⟩) ("Stinger 2") 7).1.success = true) ∧
    ((onInvocation none ("Stinger 2") 7).1.success = false ∧
      (onInvocation none ("Stinger 2") 7).1.error =
        some ("vMix connection not available.") ∧
      (onInvocation none ("Stinger 2") 7).2 = []) :=
  ⟨invocation_router_contract.1 none ("No Such Function") 7 (by decide),
   invocation_router_contract.2.2.1 7,
   invocation_router_contract.2.2.2 none ("Stinger 2") ("FUNCTION STINGER2") 7
     (by decide) (Or.inl rfl)⟩

/-- C10: in all three outcome branches the result carries the id of the
invocation that produced it, so a response can always be correlated with
its request. -/
theorem invocation_result_carries_id
    (c : Option VmixSocket) (identifier : String) (n : Nat) :
    (onInvocation c identifier n).1.id = n := by
  unfold onInvocation
  cases List.lookup identifier functionCommandMapping with
  | none => rfl
  | some command =>
    cases c with
    | none => rfl
    | some sock => by_cases hw : sock.writable <;> simp [hw]

/-! ## Theorems for the set-value passthrough -/

/-- C9: every set-value request is accepted: the handler returns `true`,
the addressed node's state becomes exactly the requested value, every
other node is untouched, and this holds for any requested value with no
validation against device-reported state. -/
theorem set_value_passthrough {α : Type} (state : Nat → α) (node : Nat) (value : α) :
    (onSetValue state node value).2 = true ∧
    (onSetValue state node value).1 node = value ∧
    (∀ m, m ≠ node → (onSetValue state node value).1 m = state m) := by
  refine ⟨rfl, ?_, ?_⟩
  · simp [onSetValue]
  · intro m hm
    simp [onSetValue, Function.update_noteq hm]

/-- Witness for C9: a concrete set-value request is accepted, the target
node takes the requested value, and a different node keeps its value. -/
theorem set_value_passthrough_witness :
    (onSetValue (fun _ => (0 : Nat)) 1 5).2 = true ∧
    (onSetValue (fun _ => (0 : Nat)) 1 5).1 1 = 5 ∧
    (onSetValue (fun _ => (0 : Nat)) 1 5).1 2 = 0 :=
  ⟨(set_value_passthrough (fun _ => (0 : Nat)) 1 5).1,
   (set_value_passthrough (fun _ => (0 : Nat)) 1 5).2.1,
   (set_value_passthrough (fun _ => (0 : Nat)) 1 5).2.2 2 (by decide)⟩

/-! ## Line decoder (the `vmixClient.on('data')` buffer loop)

The data handler appends each chunk to `dataBuffer`, then repeatedly
finds the first occurrence of the two-byte CRLF terminator, emits the
text before it (trimmed), and drops the line and its terminator from
the buffer, leaving any trailing partial line buffered. -/

/-- Whitespace predicate used by the `trim()` applied to each decoded
line (ASCII whitespace). -/
def isJSWhitespace (c : Char) : Bool :=
  c == ' ' || c == '\t' || c == '\n' || c == '\r' || c == '\x0b' || c == '\x0c'

/-- The `trim()` applied to each decoded line: strip whitespace from
both ends. -/
def jsTrim (s : List Char) : List Char :=
  ((s.dropWhile isJSWhitespace).reverse.dropWhile isJSWhitespace).reverse

/-- Index of the first occurrence of the CRLF terminator in the buffer,
as computed by `dataBuffer.indexOf('\r\n')` (`none` for not found). -/
def findCRLF : List Char → Option Nat
  | [] => none
  | [_] => none
  | c :: d :: t =>
    if c = '\r' ∧ d = '\n' then some 0 else (findCRLF (d :: t)).map (· + 1)

/-- A found CRLF index leaves at least the two terminator bytes inside
the buffer. -/
theorem findCRLF_some_len (s : List Char) (k : Nat) (h : findCRLF s = some k) :
    k + 2 ≤ s.length := by
  induction s generalizing k with
  | nil => simp [findCRLF] at h
  | cons c rest ih =>
    cases rest with
    | nil => simp [findCRLF] at h
    | cons d t =>
      rw [findCRLF] at h
      split at h
      · cases h
        simp
      · rcases Option.map_eq_some'.mp h with ⟨j, hj, hjk⟩
        have := ih j hj
        simp at this ⊢
        omega

/-- The first CRLF of a buffer stays the first CRLF after more bytes are
appended: positions before it contain no terminator, and both bytes of
the terminator already lie inside the original buffer. -/
theorem findCRLF_append_some (b c : List Char) (k : Nat)
    (h : findCRLF b = some k) : findCRLF (b ++ c) = some k := by
  induction b generalizing k with
  | nil => simp [findCRLF] at h
  | cons x rest ih =>
    cases rest with
    | nil => simp [findCRLF] at h
    | cons d t =>
      rw [findCRLF] at h
      rw [List.cons_append, List.cons_append, findCRLF]
      split at h
      · cases h
        rename_i hx
        simp [hx]
      · rename_i hx
        rcases Option.map_eq_some'.mp h with ⟨j, hj, hjk⟩
        have hrec := ih j hj
        rw [List.cons_append] at hrec
        simp [hx, hrec, hjk]

/-- The buffer loop: extract every complete CRLF-terminated line (each
emitted via `trim()`), returning the emitted lines in order and the
retained trailing partial line. -/
def extractLines (s : List Char) : List (List Char) × List Char :=
  match h : findCRLF s with
  | none => ([], s)
  | some k =>
    let r := extractLines (s.drop (k + 2))
    (jsTrim (s.take k) :: r.1, r.2)
termination_by s.length
decreasing_by
  have hk := findCRLF_some_len s k h
  simp only [List.length_drop]
  omega

/-- Unfolding lemma: a buffer with no terminator emits nothing and is
retained whole. -/
theorem extractLines_none (s : List Char) (h : findCRLF s = none) :
    extractLines s = ([], s) := by
  rw [extractLines.eq_def]
  split
  · rfl
  · rename_i k hk
    rw [h] at hk
    cases hk

/-- Unfolding lemma: a buffer whose first terminator is at index `k`
emits the trimmed prefix and continues past the terminator. -/
theorem extractLines_some (s : List Char) (k : Nat) (h : findCRLF s = some k) :
    extractLines s =
      (jsTrim (s.take k) :: (extractLines (s.drop (k + 2))).1,
       (extractLines (s.drop (k + 2))).2) := by
  rw [extractLines.eq_def]
  split
  · rename_i hnone
    rw [h] at hnone
    cases hnone
  · rename_i k2 hk2
    rw [h] at hk2
    injection hk2 with hkk
    subst hkk
    rfl

/-- The retained trailing partial line never contains a terminator. -/
theorem extractLines_residue (s : List Char) :
    findCRLF (extractLines s).2 = none := by
  generalize hn : s.length = n
  induction n using Nat.strong_induction_on generalizing s with
  | _ n ih =>
    cases hb : findCRLF s with
    | none => rw [extractLines_none s hb]; exact hb
    | some k =>
      have hk := findCRLF_some_len s k hb
      rw [extractLines_some s k hb]
      exact ih (s.drop (k + 2)).length (by subst hn; simp; omega) _ rfl

/-- Appending further bytes to a buffer first finishes the lines already
present, then continues from the retained partial line. -/
theorem extractLines_append (b c : List Char) :
    extractLines (b ++ c) =
      ((extractLines b).1 ++ (extractLines ((extractLines b).2 ++ c)).1,
       (extractLines ((extractLines b).2 ++ c)).2) := by
  generalize hn : b.length = n
  induction n using Nat.strong_induction_on generalizing b with
  | _ n ih =>
    cases hb : findCRLF b with
    | none =>
      rw [extractLines_none b hb]
      simp
    | some k =>
      have hk2 : k + 2 ≤ b.length := findCRLF_some_len b k hb
      have hbc : findCRLF (b ++ c) = some k := findCRLF_append_some b c k hb
      have htake : (b ++ c).take k = b.take k :=
        List.take_append_of_le_length (by omega)
      have hdrop : (b ++ c).drop (k + 2) = b.drop (k + 2) ++ c :=
        List.drop_append_of_le_length hk2
      rw [extractLines_some b k hb, extractLines_some (b ++ c) k hbc, htake, hdrop,
        ih (b.drop (k + 2)).length (by subst hn; simp; omega) _ rfl]
      simp

/-- One step of chunked feeding: append the chunk to the retained buffer
and run the extraction loop, accumulating emitted lines. -/
def feedChunk (acc : List (List Char) × List Char) (chunk : List Char) :
    List (List Char) × List Char :=
  (acc.1 ++ (extractLines (acc.2 ++ chunk)).1, (extractLines (acc.2 ++ chunk)).2)

/-- Feed a sequence of chunks through the decoder, starting from the
empty buffer. -/
def feedChunks (chunks : List (List Char)) : List (List Char) × List Char :=
  chunks.foldl feedChunk ([], [])

/-- Chunked feeding from any terminator-free buffer equals one-shot
extraction of the concatenation. -/
theorem feedChunks_foldl (chunks : List (List Char)) :
    ∀ (ls : List (List Char)) (buf : List Char), findCRLF buf = none →
      chunks.foldl feedChunk (ls, buf) =
        (ls ++ (extractLines (buf ++ chunks.flatten)).1,
         (extractLines (buf ++ chunks.flatten)).2) := by
  induction chunks with
  | nil =>
    intro ls buf hbuf
    simp [extractLines_none buf hbuf]
  | cons ch chs ih =>
    intro ls buf hbuf
    simp only [List.foldl_cons, feedChunk]
    rw [ih _ _ (extractLines_residue (buf ++ ch))]
    have hassoc : buf ++ (ch :: chs).flatten = (buf ++ ch) ++ chs.flatten := by
      simp
    rw [hassoc, extractLines_append (buf ++ ch) chs.flatten]
    simp

/-- C6: feeding a byte stream to the line decoder in any sequence of
chunks, split at arbitrary boundaries (including mid-terminator), yields
exactly the same ordered sequence of decoded lines as feeding the whole
stream as one chunk, with the same trailing partial line retained in the
buffer. -/
theorem line_decoder_chunking_invariance (chunks : List (List Char)) :
    feedChunks chunks = extractLines chunks.flatten := by
  unfold feedChunks
  rw [feedChunks_foldl chunks [] [] rfl]
  simp

/-! ## TALLY and ACTS line handlers -/

/-- The Program/Preview tally parameters, one boolean per input number
(inputs 1..32 exist in the tree; the handler indexes them by `i + 1`). -/
structure TallyState where
  program : Nat → Bool
  preview : Nat → Bool

/-- The ACTS Status parameters: Recording, MultiCorder, Streaming. -/
structure ActsState where
  recording : Bool
  multiCorder : Bool
  streaming : Bool
deriving DecidableEq

/-- Handles of the ACTS status parameter nodes. -/
inductive ActsNode
  | recording
  | multiCorder
  | streaming
deriving DecidableEq

/-- The `actsStatusNodes` lookup table keyed by category name: defined for
exactly Recording, MultiCorder and Streaming. -/
def actsStatusNodes (category : List Char) : Option ActsNode :=
  if category = "Recording".toList then some ActsNode.recording
  else if category = "MultiCorder".toList then some ActsNode.multiCorder
  else if category = "Streaming".toList then some ActsNode.streaming
  else none

/-- Write an ACTS status parameter (`s.update(actsStatusNodes[category],
{ value })`). -/
def actsUpdate (st : ActsState) (node : ActsNode) (value : Bool) : ActsState :=
  match node with
  | ActsNode.recording => { st with recording := value }
  | ActsNode.multiCorder => { st with multiCorder := value }
  | ActsNode.streaming => { st with streaming := value }

/-- One iteration of the tally loop body: read the digit at position `i`
and write both the Program and the Preview parameter of input `i + 1`. -/
def tallyStep (tallyString : List Char) (st : TallyState) (i : Nat) : TallyState :=
  let digit := tallyString.getD i ' '
  { program := Function.update st.program (i + 1) (digit == '1'),
    preview := Function.update st.preview (i + 1) (digit == '2') }

/-- The tally loop: `for (let i = 0; i < tallyString.length && i < 32; i++)`
applied to the tally state. -/
def applyTally (st : TallyState) (tallyString : List Char) : TallyState :=
  (List.range (min tallyString.length 32)).foldl (tallyStep tallyString) st

/-- JavaScript `line.split(' ')`: split on each single space character,
keeping empty tokens (so `""` gives `[""]`). -/
def splitOnSpace : List Char → List (List Char)
  | [] => [[]]
  | c :: rest =>
    if c = ' ' then [] :: splitOnSpace rest
    else
      match splitOnSpace rest with
      | [] => [[c]]
      | t :: ts => (c :: t) :: ts

/-- The ACTS branch of the line handler: split the line on spaces; with
at least 4 tokens, token 3 is the category and token 4 the value
(`"1"` means true); update the node if the category is in the table,
otherwise leave the state unchanged. -/
def handleActsLine (st : ActsState) (line : List Char) : ActsState :=
  let parts := splitOnSpace line
  if 4 ≤ parts.length then
    let category := parts.getD 2 []
    let valueStr := parts.getD 3 []
    let value := valueStr == "1".toList
    match actsStatusNodes category with
    | some node => actsUpdate st node value
    | none => st
  else st

/-- The tree state touched by the data handler's line dispatch. -/
structure BridgeTreeState where
  tally : TallyState
  acts : ActsState

/-- The per-line dispatch of the data handler: a line starting with
"TALLY OK" runs the tally loop on the characters after the 9-character
prefix; otherwise a line starting with "ACTS OK" runs the ACTS branch;
any other line only logs. -/
def handleLine (st : BridgeTreeState) (line : List Char) : BridgeTreeState :=
  if "TALLY OK".toList.isPrefixOf line then
    { st with tally := applyTally st.tally (line.drop 9) }
  else if "ACTS OK".toList.isPrefixOf line then
    { st with acts := handleActsLine st.acts line }
  else st

/-- Inputs whose number is not `i + 1` for any loop index `i` are left
unchanged by the tally loop. -/
theorem tallyFold_out (s : List Char) (n : Nat) (st : TallyState) (j : Nat)
    (hj : ∀ i, i < n → i + 1 ≠ j) :
    ((List.range n).foldl (tallyStep s) st).program j = st.program j ∧
      ((List.range n).foldl (tallyStep s) st).preview j = st.preview j := by
  induction n with
  | zero => simp
  | succ n ih =>
    rw [List.range_succ, List.foldl_append, List.foldl_cons, List.foldl_nil]
    have hjn : j ≠ n + 1 := fun h => hj n (Nat.lt_succ_self n) h.symm
    have hrec := ih (fun i hi => hj i (Nat.lt_succ_of_lt hi))
    simp only [tallyStep]
    constructor
    · rw [Function.update_noteq hjn]
      exact hrec.1
    · rw [Function.update_noteq hjn]
      exact hrec.2

/-- Each loop index `i` leaves the Program parameter of input `i + 1`
equal to whether the digit is '1' and the Preview parameter equal to
whether the digit is '2'. -/
theorem tallyFold_in (s : List Char) (n : Nat) (st : TallyState) (i : Nat)
    (hi : i < n) :
    ((List.range n).foldl (tallyStep s) st).program (i + 1) = (s.getD i ' ' == '1') ∧
      ((List.range n).foldl (tallyStep s) st).preview (i + 1) = (s.getD i ' ' == '2') := by
  induction n with
  | zero => omega
  | succ n ih =>
    rw [List.range_succ, List.foldl_append, List.foldl_cons, List.foldl_nil]
    simp only [tallyStep]
    by_cases hin : i = n
    · subst hin
      constructor
      · rw [Function.update_same]
      · rw [Function.update_same]
    · have hlt : i < n := by omega
      have hne : i + 1 ≠ n + 1 := by omega
      have hrec := ih hlt
      constructor
      · rw [Function.update_noteq hne]
        exact hrec.1
      · rw [Function.update_noteq hne]
        exact hrec.2

/-- A line of the form "TALLY OK " ++ s is taken by the TALLY branch, and
the tally string seen by the loop is exactly s. -/
theorem handleLine_tally (st : BridgeTreeState) (s : List Char) :
    handleLine st ("TALLY OK ".toList ++ s) =
      { st with tally := applyTally st.tally s } := by
  have hsplit : "TALLY OK ".toList = "TALLY OK".toList ++ [' '] := rfl
  have hpre : "TALLY OK".toList.isPrefixOf ("TALLY OK ".toList ++ s) = true := by
    rw [List.isPrefixOf_iff_prefix, hsplit, List.append_assoc]
    exact List.prefix_append _ _
  have hdrop : ("TALLY OK ".toList ++ s).drop 9 = s := by
    have hlen : ("TALLY OK ".toList).length = 9 := rfl
    rw [← hlen, List.drop_left]
  rw [handleLine, hpre, if_pos rfl, hdrop]

/-- C4: on every received tally line, for every index i below both the
tally string's length and 32, the Program parameter of input i+1 is set
to (character = '1') and the Preview parameter to (character = '2'),
regardless of their previous values; inputs whose number exceeds 32 or
the string's length are left unchanged. -/
theorem tally_line_projection (st : BridgeTreeState) (s : List Char) :
    (∀ i, i < s.length → i < 32 →
      (handleLine st ("TALLY OK ".toList ++ s)).tally.program (i + 1) =
          (s.getD i ' ' == '1') ∧
        (handleLine st ("TALLY OK ".toList ++ s)).tally.preview (i + 1) =
          (s.getD i ' ' == '2')) ∧
    (∀ j, 32 < j ∨ s.length < j →
      (handleLine st ("TALLY OK ".toList ++ s)).tally.program j = st.tally.program j ∧
        (handleLine st ("TALLY OK ".toList ++ s)).tally.preview j = st.tally.preview j) := by
  rw [handleLine_tally]
  constructor
  · intro i hilen hi32
    exact tallyFold_in s (min s.length 32) st.tally i (by omega)
  · intro j hj
    exact tallyFold_out s (min s.length 32) st.tally j (by omega)

/-- Witness for C4: on tally string "012", input 2 goes to Program
(digit '1' gives (true, false)), input 3 goes to Preview (digit '2'
gives (false, true)), input 1 is cleared on both even though it was
previously true, and input 4 keeps its previous value. -/
theorem tally_line_projection_witness :
    ((handleLine ⟨⟨fun _ => true, fun _ => true⟩, ⟨false, false, false⟩⟩
        ("TALLY OK ".toList ++ "012".toList)).tally.program 2 =
          ("012".toList.getD 1 ' ' == '1') ∧
      (handleLine ⟨⟨fun _ => true, fun _ => true⟩, ⟨false, false, false⟩⟩
        ("TALLY OK ".toList ++ "012".toList)).tally.preview 2 =
          ("012".toList.getD 1 ' ' == '2')) ∧
    (("012".toList.getD 1 ' ' == '1') = true ∧ ("012".toList.getD 1 ' ' == '2') = false) ∧
    ((handleLine ⟨⟨fun _ => true, fun _ => true⟩, ⟨false, false, false⟩⟩
        ("TALLY OK ".toList ++ "012".toList)).tally.program 1 =
          ("012".toList.getD 0 ' ' == '1') ∧
      (handleLine ⟨⟨fun _ => true, fun _ => true⟩, ⟨false, false, false⟩⟩
        ("TALLY OK ".toList ++ "012".toList)).tally.preview 1 =
          ("012".toList.getD 0 ' ' == '2')) ∧
    (("012".toList.getD 0 ' ' == '1') = false) ∧
    ((handleLine ⟨⟨fun _ => true, fun _ => true⟩, ⟨false, false, false⟩⟩
        ("TALLY OK ".toList ++ "012".toList)).tally.program 4 = true ∧
      (handleLine ⟨⟨fun _ => true, fun _ => true⟩, ⟨false, false, false⟩⟩
        ("TALLY OK ".toList ++ "012".toList)).tally.preview 4 = true) :=
  ⟨(tally_line_projection ⟨⟨fun _ => true, fun _ => true⟩, ⟨false, false, false⟩⟩
      ("012".toList)).1 1 (by decide) (by decide),
   ⟨by decide, by decide⟩,
   (tally_line_projection ⟨⟨fun _ => true, fun _ => true⟩, ⟨false, false, false⟩⟩
      ("012".toList)).1 0 (by decide) (by decide),
   by decide,
   (tally_line_projection ⟨⟨fun _ => true, fun _ => true⟩, ⟨false, false, false⟩⟩
      ("012".toList)).2 4 (by decide)⟩

/-- A line taken by the ACTS branch is never taken by the TALLY branch:
the two prefixes disagree on their first character. -/
theorem acts_prefix_not_tally (line : List Char)
    (h : "ACTS OK".toList.isPrefixOf line = true) :
    "TALLY OK".toList.isPrefixOf line = false := by
  cases line with
  | nil => exact absurd h (by decide)
  | cons c rest =>
    have hA : "ACTS OK".toList = 'A' :: "CTS OK".toList := rfl
    have hT : "TALLY OK".toList = 'T' :: "ALLY OK".toList := rfl
    rw [hA] at h
    rw [hT]
    simp only [List.isPrefixOf, Bool.and_eq_true, beq_iff_eq] at h
    obtain ⟨hc, -⟩ := h
    subst hc
    have hTA : (('T' : Char) == 'A') = false := by decide
    simp [List.isPrefixOf, hTA]

/-- C5: every line taken by the ACTS branch is split on single spaces;
with fewer than 4 tokens nothing is updated; with at least 4 tokens the
3rd token selects the category and the 4th token sets the value (true
exactly when it is "1"), updating only the matching handle when the
category is Recording, MultiCorder or Streaming; an unknown category
updates nothing. -/
theorem acts_line_projection (st : BridgeTreeState) (line : List Char)
    (hpre : "ACTS OK".toList.isPrefixOf line = true) :
    ((splitOnSpace line).length < 4 → handleLine st line = st) ∧
    (4 ≤ (splitOnSpace line).length →
      ((splitOnSpace line).getD 2 [] = "Recording".toList →
        (handleLine st line).acts.recording =
            ((splitOnSpace line).getD 3 [] == "1".toList) ∧
          (handleLine st line).acts.multiCorder = st.acts.multiCorder ∧
          (handleLine st line).acts.streaming = st.acts.streaming ∧
          (handleLine st line).tally = st.tally) ∧
      ((splitOnSpace line).getD 2 [] = "MultiCorder".toList →
        (handleLine st line).acts.multiCorder =
            ((splitOnSpace line).getD 3 [] == "1".toList) ∧
          (handleLine st line).acts.recording = st.acts.recording ∧
          (handleLine st line).acts.streaming = st.acts.streaming ∧
          (handleLine st line).tally = st.tally) ∧
      ((splitOnSpace line).getD 2 [] = "Streaming".toList →
        (handleLine st line).acts.streaming =
            ((splitOnSpace line).getD 3 [] == "1".toList) ∧
          (handleLine st line).acts.recording = st.acts.recording ∧
          (handleLine st line).acts.multiCorder = st.acts.multiCorder ∧
          (handleLine st line).tally = st.tally)) ∧
    (actsStatusNodes ((splitOnSpace line).getD 2 []) = none →
      handleLine st line = st) := by
  have htally := acts_prefix_not_tally line hpre
  have hdispatch : handleLine st line = { st with acts := handleActsLine st.acts line } := by
    rw [handleLine, htally, hpre]
    simp
  refine ⟨?_, ?_, ?_⟩
  · intro hlen
    rw [hdispatch]
    simp only [handleActsLine]
    rw [if_neg (by omega)]
  · intro hlen
    refine ⟨?_, ?_, ?_⟩
    · intro hcat
      have hnode : actsStatusNodes ((splitOnSpace line).getD 2 []) =
          some ActsNode.recording := by
        rw [hcat]
        try decide
      rw [hdispatch]
      simp only [handleActsLine]
      rw [if_pos hlen, hnode]
      simp [actsUpdate]
    · intro hcat
      have hnode : actsStatusNodes ((splitOnSpace line).getD 2 []) =
          some ActsNode.multiCorder := by
        rw [hcat]
        try decide
      rw [hdispatch]
      simp only [handleActsLine]
      rw [if_pos hlen, hnode]
      simp [actsUpdate]
    · intro hcat
      have hnode : actsStatusNodes ((splitOnSpace line).getD 2 []) =
          some ActsNode.streaming := by
        rw [hcat]
        try decide
      rw [hdispatch]
      simp only [handleActsLine]
      rw [if_pos hlen, hnode]
      simp [actsUpdate]
  · intro hnone
    rw [hdispatch]
    simp only [handleActsLine]
    by_cases hlen : 4 ≤ (splitOnSpace line).length
    · rw [if_pos hlen, hnone]
    · rw [if_neg hlen]

/-- Witness for C5: the lines "ACTS OK Recording 1", "ACTS OK
MultiCorder 0" and "ACTS OK Streaming 1" project to Recording = true,
MultiCorder = false and Streaming = true while leaving the other two
handles untouched; the 3-token line "ACTS OK Recording" and the unknown
category line "ACTS OK Foo 1" change nothing. -/
theorem acts_line_projection_witness :
    ((handleLine ⟨⟨fun _ => false, fun _ => false⟩, ⟨false, true, false⟩⟩
        ("ACTS OK Recording 1".toList)).acts.recording =
          ((splitOnSpace ("ACTS OK Recording 1".toList)).getD 3 [] == "1".toList) ∧
      ((splitOnSpace ("ACTS OK Recording 1".toList)).getD 3 [] == "1".toList) = true) ∧
    ((handleLine ⟨⟨fun _ => false, fun _ => false⟩, ⟨false, true, false⟩⟩
        ("ACTS OK MultiCorder 0".toList)).acts.multiCorder =
          ((splitOnSpace ("ACTS OK MultiCorder 0".toList)).getD 3 [] == "1".toList) ∧
      ((splitOnSpace ("ACTS OK MultiCorder 0".toList)).getD 3 [] == "1".toList) = false) ∧
    ((handleLine ⟨⟨fun _ => false, fun _ => false⟩, ⟨false, true, false⟩⟩
        ("ACTS OK Streaming 1".toList)).acts.streaming =
          ((splitOnSpace ("ACTS OK Streaming 1".toList)).getD 3 [] == "1".toList)) ∧
    (handleLine ⟨⟨fun _ => false, fun _ => false⟩, ⟨false, true, false⟩⟩
        ("ACTS OK Recording".toList) =
      ⟨⟨fun _ => false, fun _ => false⟩, ⟨false, true, false⟩⟩) ∧
    (handleLine ⟨⟨fun _ => false, fun _ => false⟩, ⟨false, true, false⟩⟩
        ("ACTS OK Foo 1".toList) =
      ⟨⟨fun _ => false, fun _ => false⟩, ⟨false, true, false⟩⟩) :=
  ⟨⟨((acts_line_projection ⟨⟨fun _ => false, fun _ => false⟩, ⟨false, true, false⟩⟩
        ("ACTS OK Recording 1".toList) (by decide)).2.1 (by decide)).1
          (by decide) |>.1, by decide⟩,
   ⟨((acts_line_projection ⟨⟨fun _ => false, fun _ => false⟩, ⟨false, true, false⟩⟩
        ("ACTS OK MultiCorder 0".toList) (by decide)).2.1 (by decide)).2.1
          (by decide) |>.1, by decide⟩,
   ((acts_line_projection ⟨⟨fun _ => false, fun _ => false⟩, ⟨false, true, false⟩⟩
        ("ACTS OK Streaming 1".toList) (by decide)).2.1 (by decide)).2.2
          (by decide) |>.1,
   (acts_line_projection ⟨⟨fun _ => false, fun _ => false⟩, ⟨false, true, false⟩⟩
        ("ACTS OK Recording".toList) (by decide)).1 (by decide),
   (acts_line_projection ⟨⟨fun _ => false, fun _ => false⟩, ⟨false, true, false⟩⟩
        ("ACTS OK Foo 1".toList) (by decide)).2.2 (by decide)⟩

/-! ## Connection supervisor (`connectToVMix` / `scheduleReconnect`)

The supervisor is modelled as a state machine over the mutable globals
of the source (`vmixConnection`, the "vMix Connected" parameter value,
`reconnectScheduled`, the set of pending `setTimeout` reconnect timers)
plus the lifecycle stage of the current socket with its captured
`delayIndex`.  Events are the callbacks the source registers: the
connect callback, the two kinds of `'error'` (`ECONNREFUSED` versus any
other code), `'close'`, and a pending reconnect timer firing.  Each
callback body runs atomically on the event loop, so states are observed
only at event boundaries.  A socket's `'close'` is delivered in the same
event-loop turn as its `'error'`, long before any reconnect timer (all
delays are at least 2 seconds), so timer firings are only enabled once
the current socket has closed. -/

/-- Retry delays in milliseconds. -/
def retryDelays : List Nat := [2000, 4000, 16000]

/-- Maximum 30s delay for subsequent attempts. -/
def maxRetryDelay : Nat := 30000

/-- Delay chosen for a failure at the given retry index:
`(delayIndex < retryDelays.length) ? retryDelays[delayIndex] : maxRetryDelay`. -/
def delayFor (delayIndex : Nat) : Nat :=
  if h : delayIndex < retryDelays.length then retryDelays.get ⟨delayIndex, h⟩
  else maxRetryDelay

/-- Retry index passed to `scheduleReconnect` for the next attempt:
`(delayIndex < retryDelays.length) ? delayIndex + 1 : delayIndex`. -/
def nextDelayIndex (delayIndex : Nat) : Nat :=
  if delayIndex < retryDelays.length then delayIndex + 1 else delayIndex

/-- Lifecycle stage of the current connect attempt, with the attempt's
captured `delayIndex`.  `errored` records whether the error hit an
established connection (rather than a failing connect attempt), which
determines whether the connected flag was up when the error arrived. -/
inductive Phase
  | connecting (delayIndex : Nat)
  | connected (delayIndex : Nat)
  | errored (delayIndex : Nat) (wasConnected : Bool)
  | closed
deriving DecidableEq

/-- Supervisor state: `conn` is whether `vmixConnection` is non-null,
`flag` the value of the "vMix Connected" tree parameter, `guard` the
`reconnectScheduled` flag, `pending` the multiset of scheduled reconnect
timers as (delay, next index) pairs in creation order, and `phase` the
current socket's stage. -/
structure SupState where
  conn : Bool
  flag : Bool
  guard : Bool
  pending : List (Nat × Nat)
  phase : Phase
deriving DecidableEq

/-- Events delivered to the supervisor. -/
inductive Ev
  | connectOk
  | errRefused
  | errOther
  | closeEv
  | timerFire
deriving DecidableEq

/-- The body of `scheduleReconnect(delay, delayIndex)`: if no reconnect
is scheduled yet, set the guard, push the connected flag to false and
create the timer; otherwise do nothing. -/
def scheduleReconnect (st : SupState) (delay : Nat) (delayIndex : Nat) : SupState :=
  if st.guard then st
  else { st with guard := true, flag := false,
                 pending := st.pending ++ [(delay, delayIndex)] }

/-- One supervisor transition per delivered event, mirroring the handler
bodies in `connectToVMix`:
the connect callback stores the connection, sets the flag true, resets
the guard and the local `delayIndex`, and issues the subscription writes
(all within one atomic callback);
an `ECONNREFUSED` error clears `vmixConnection` and schedules a
reconnect; any other error only clears `vmixConnection`;
`'close'` clears `vmixConnection` and schedules a reconnect;
a firing timer resets the guard and starts a fresh attempt with the
carried index.  Events that cannot occur in the current stage leave the
state unchanged. -/
def step (st : SupState) : Ev → SupState
  | Ev.connectOk =>
    match st.phase with
    | Phase.connecting _ =>
      { st with conn := true, flag := true, guard := false,
                phase := Phase.connected 0 }
    | _ => st
  | Ev.errRefused =>
    match st.phase with
    | Phase.connecting i =>
      scheduleReconnect { st with conn := false, phase := Phase.errored i false }
        (delayFor i) (nextDelayIndex i)
    | _ => st
  | Ev.errOther =>
    match st.phase with
    | Phase.connecting i => { st with conn := false, phase := Phase.errored i false }
    | Phase.connected i => { st with conn := false, phase := Phase.errored i true }
    | _ => st
  | Ev.closeEv =>
    match st.phase with
    | Phase.connecting i =>
      scheduleReconnect { st with conn := false, phase := Phase.closed }
        (delayFor i) (nextDelayIndex i)
    | Phase.connected i =>
      scheduleReconnect { st with conn := false, phase := Phase.closed }
        (delayFor i) (nextDelayIndex i)
    | Phase.errored i _ =>
      scheduleReconnect { st with conn := false, phase := Phase.closed }
        (delayFor i) (nextDelayIndex i)
    | Phase.closed => st
  | Ev.timerFire =>
    match st.phase, st.pending with
    | Phase.closed, (_, j) :: rest =>
      { st with guard := false, pending := rest, phase := Phase.connecting j }
    | _, _ => st

/-- Process start: no connection, flag false, no reconnect scheduled, and
`connectToVMix()` invoked with the default index 0. -/
def initState : SupState :=
  { conn := false, flag := false, guard := false, pending := [],
    phase := Phase.connecting 0 }

/-- States reachable from process start by any event sequence. -/
inductive Reachable : SupState → Prop
  | refl : Reachable initState
  | next (st : SupState) (e : Ev) : Reachable st → Reachable (step st e)

/-- Whether a phase has an active (stored, writable) connection. -/
def isActivePhase : Phase → Bool
  | Phase.connected _ => true
  | _ => false

/-- Whether a phase is the gap after a non-refused transport error
destroyed an established connection but its close event has not yet been
delivered. -/
def isErrGap : Phase → Bool
  | Phase.errored _ true => true
  | _ => false

/-- The supervisor's inductive invariant: the connection reference is
non-null exactly in the connected stage; while connecting or connected
no reconnect is scheduled (and the connected stage has index 0); the
guard is set exactly while a timer is pending, and at most one timer is
ever pending; a set guard implies the flag is down; a closed socket
always has a reconnect scheduled; and the flag is up exactly when a
connection is active or a non-refused error on an established
connection has not yet been followed by its close event. -/
def Inv (st : SupState) : Prop :=
  st.conn = isActivePhase st.phase ∧
  (∀ i, st.phase = Phase.connecting i →
    st.guard = false ∧ st.pending = [] ∧ st.flag = false) ∧
  (∀ i, st.phase = Phase.connected i →
    st.guard = false ∧ st.pending = [] ∧ i = 0) ∧
  (st.guard = true ↔ st.pending ≠ []) ∧
  st.pending.length ≤ 1 ∧
  (st.guard = true → st.flag = false) ∧
  (st.phase = Phase.closed → st.guard = true) ∧
  st.flag = (st.conn || isErrGap st.phase)

/-- The invariant holds at process start. -/
theorem inv_initState : Inv initState := by
  unfold Inv initState
  refine ⟨rfl, ?_, ?_, ?_, ?_, ?_, ?_, rfl⟩ <;> simp [isActivePhase]

/-- Every supervisor transition preserves the invariant. -/
theorem inv_step (st : SupState) (e : Ev) (h : Inv st) : Inv (step st e) := by
  obtain ⟨c1, c2, c3, c4, c5, c6, c7, c8⟩ := h
  have hInv : Inv st := ⟨c1, c2, c3, c4, c5, c6, c7, c8⟩
  cases e with
  | connectOk =>
    cases hph : st.phase with
    | connecting i =>
      obtain ⟨hg, hp, hf⟩ := c2 i hph
      unfold Inv
      simp only [step, hph]
      refine ⟨?_, ?_, ?_, ?_, ?_, ?_, ?_, ?_⟩ <;>
        simp [isActivePhase, isErrGap, hp]
    | connected i => simpa only [step, hph] using hInv
    | errored i b => simpa only [step, hph] using hInv
    | closed => simpa only [step, hph] using hInv
  | errRefused =>
    cases hph : st.phase with
    | connecting i =>
      obtain ⟨hg, hp, hf⟩ := c2 i hph
      unfold Inv
      simp only [step, hph, scheduleReconnect]
      refine ⟨?_, ?_, ?_, ?_, ?_, ?_, ?_, ?_⟩ <;>
        simp [isActivePhase, isErrGap, hg, hp]
    | connected i => simpa only [step, hph] using hInv
    | errored i b => simpa only [step, hph] using hInv
    | closed => simpa only [step, hph] using hInv
  | errOther =>
    cases hph : st.phase with
    | connecting i =>
      obtain ⟨hg, hp, hf⟩ := c2 i hph
      unfold Inv
      simp only [step, hph]
      refine ⟨?_, ?_, ?_, ?_, ?_, ?_, ?_, ?_⟩ <;>
        simp [isActivePhase, isErrGap, hg, hp, hf]
    | connected i =>
      obtain ⟨hg, hp, hi⟩ := c3 i hph
      have hconn : st.conn = true := by rw [c1, hph]; rfl
      have hflag : st.flag = true := by
        rw [c8, hconn, hph]
        rfl
      unfold Inv
      simp only [step, hph]
      refine ⟨?_, ?_, ?_, ?_, ?_, ?_, ?_, ?_⟩ <;>
        simp [isActivePhase, isErrGap, hg, hp, hflag]
    | errored i b => simpa only [step, hph] using hInv
    | closed => simpa only [step, hph] using hInv
  | closeEv =>
    cases hph : st.phase with
    | connecting i =>
      obtain ⟨hg, hp, hf⟩ := c2 i hph
      unfold Inv
      simp only [step, hph, scheduleReconnect]
      refine ⟨?_, ?_, ?_, ?_, ?_, ?_, ?_, ?_⟩ <;>
        simp [isActivePhase, isErrGap, hg, hp]
    | connected i =>
      obtain ⟨hg, hp, hi⟩ := c3 i hph
      unfold Inv
      simp only [step, hph, scheduleReconnect]
      refine ⟨?_, ?_, ?_, ?_, ?_, ?_, ?_, ?_⟩ <;>
        simp [isActivePhase, isErrGap, hg, hp]
    | errored i b =>
      unfold Inv
      simp only [step, hph, scheduleReconnect]
      cases hg : st.guard with
      | true =>
        have hpne : st.pending ≠ [] := c4.mp hg
        have hf : st.flag = false := c6 hg
        refine ⟨?_, ?_, ?_, ?_, ?_, ?_, ?_, ?_⟩ <;>
          simp [isActivePhase, isErrGap, hpne, hf, c5]
      | false =>
        have hp : st.pending = [] := by
          by_contra hne
          exact absurd (c4.mpr hne) (by simp [hg])
        refine ⟨?_, ?_, ?_, ?_, ?_, ?_, ?_, ?_⟩ <;>
          simp [isActivePhase, isErrGap, hp]
    | closed => simpa only [step, hph] using hInv
  | timerFire =>
    cases hph : st.phase with
    | connecting i => simpa only [step, hph] using hInv
    | connected i => simpa only [step, hph] using hInv
    | errored i b => simpa only [step, hph] using hInv
    | closed =>
      cases hpend : st.pending with
      | nil => simpa only [step, hph, hpend] using hInv
      | cons hd rest =>
        obtain ⟨d, j⟩ := hd
        have hrest : rest = [] := by
          have h5 := c5
          rw [hpend] at h5
          simp only [List.length_cons] at h5
          exact List.length_eq_zero.mp (by omega)
        have hg : st.guard = true := c7 hph
        have hf : st.flag = false := c6 hg
        have hconn : st.conn = false := by rw [c1, hph]; rfl
        unfold Inv
        simp only [step, hph, hpend]
        refine ⟨?_, ?_, ?_, ?_, ?_, ?_, ?_, ?_⟩ <;>
          simp [isActivePhase, isErrGap, hrest, hf, hconn]

/-- Every reachable supervisor state satisfies the invariant. -/
theorem reachable_inv (st : SupState) (h : Reachable st) : Inv st := by
  induction h with
  | refl => exact inv_initState
  | next st e hst ih => exact inv_step st e ih

/-- Run a sequence of events through the supervisor. -/
def runEvents (st : SupState) (evs : List Ev) : SupState := evs.foldl step st

/-- Delay scheduled for the n-th consecutive connection failure of a run
that starts at retry index 0, each failure advancing the index by
`nextDelayIndex`. -/
def failureDelay (n : Nat) : Nat := delayFor (nextDelayIndex^[n] 0)

/-- The retry index of the n-th consecutive failure saturates at 3. -/
theorem iterate_nextDelayIndex (n : Nat) : nextDelayIndex^[n] 0 = min n 3 := by
  induction n with
  | zero => rfl
  | succ n ih =>
    have hlen : retryDelays.length = 3 := rfl
    rw [Function.iterate_succ_apply', ih, nextDelayIndex, hlen]
    split_ifs <;> omega

/-! ## Theorems for the connection supervisor -/

/-- C1 counterexample: the claimed biconditional fails on the code.  In
the reachable state reached by a successful connect followed by a
non-ECONNREFUSED transport error (for example a connection reset), the
error handler has cleared `vmixConnection` but only logs — it does not
touch the flag and does not schedule a reconnect — so the "vMix
Connected" parameter is still true while no device connection is active
(and no back-off window has begun). -/
theorem connected_flag_counterexample :
    Reachable (step (step initState Ev.connectOk) Ev.errOther) ∧
    (step (step initState Ev.connectOk) Ev.errOther).flag = true ∧
    (step (step initState Ev.connectOk) Ev.errOther).conn = false ∧
    (step (step initState Ev.connectOk) Ev.errOther).guard = false :=
  ⟨Reachable.next _ Ev.errOther (Reachable.next _ Ev.connectOk Reachable.refl),
   by decide, by decide, by decide⟩

/-- C1 amended: in every reachable state the "vMix Connected" parameter
is true if and only if a device connection is active and subscribed, or
an established connection was destroyed by a non-refused transport error
whose close event has not yet been delivered; in particular the flag is
false from process start until the first successful connect, and false
whenever a reconnect is scheduled (throughout every back-off window). -/
theorem connected_flag_invariant (st : SupState) (h : Reachable st) :
    st.flag = (st.conn || isErrGap st.phase) ∧
    (st.guard = true → st.flag = false) := by
  obtain ⟨-, -, -, -, -, c6, -, c8⟩ := reachable_inv st h
  exact ⟨c8, c6⟩

/-- Witness for the amended C1: at process start the flag agrees with
the characterization and is concretely false. -/
theorem connected_flag_invariant_witness :
    initState.flag = (initState.conn || isErrGap initState.phase) ∧
    initState.flag = false :=
  ⟨(connected_flag_invariant initState Reachable.refl).1, by decide⟩

/-- C2: the n-th consecutive failure of a run is scheduled after 2s, 4s,
16s, and 30s for every later failure; the delay never decreases across
consecutive failures; and a successful connection resets the socket's
retry index to 0, so the failure following a success schedules the 2s
delay (with next index 1) again. -/
theorem backoff_delay_schedule :
    (failureDelay 0 = 2000 ∧ failureDelay 1 = 4000 ∧ failureDelay 2 = 16000 ∧
      ∀ n, 3 ≤ n → failureDelay n = 30000) ∧
    (∀ n, failureDelay n ≤ failureDelay (n + 1)) ∧
    (∀ (st : SupState) (i : Nat), Reachable st → st.phase = Phase.connecting i →
      (step st Ev.connectOk).phase = Phase.connected 0 ∧
      (step (step st Ev.connectOk) Ev.closeEv).pending = [(2000, 1)]) := by
  refine ⟨⟨by decide, by decide, by decide, ?_⟩, ?_, ?_⟩
  · intro n hn
    have h3 : min n 3 = 3 := by omega
    rw [failureDelay, iterate_nextDelayIndex, h3]
    decide
  · intro n
    rw [failureDelay, failureDelay, iterate_nextDelayIndex, iterate_nextDelayIndex]
    rcases Nat.lt_or_ge n 3 with h | h
    · interval_cases n <;> decide
    · have h1 : min n 3 = 3 := by omega
      have h2 : min (n + 1) 3 = 3 := by omega
      rw [h1, h2]
  · intro st i hr hph
    obtain ⟨-, c2, -, -, -, -, -, -⟩ := reachable_inv st hr
    obtain ⟨hg, hp, hf⟩ := c2 i hph
    constructor
    · simp [step, hph]
    · simp [step, hph, scheduleReconnect, hg, hp, delayFor, nextDelayIndex, retryDelays]

/-- Witness for C2: the sixth failure of a run uses the 30s ceiling, and
from the start state a success followed by a failure schedules 2s. -/
theorem backoff_delay_schedule_witness :
    (3 ≤ 5 ∧ failureDelay 5 = 30000) ∧
    initState.phase = Phase.connecting 0 ∧
    (step initState Ev.connectOk).phase = Phase.connected 0 ∧
    (step (step initState Ev.connectOk) Ev.closeEv).pending = [(2000, 1)] :=
  ⟨⟨by decide, backoff_delay_schedule.1.2.2.2 5 (by decide)⟩, rfl,
   (backoff_delay_schedule.2.2 initState 0 Reachable.refl rfl).1,
   (backoff_delay_schedule.2.2 initState 0 Reachable.refl rfl).2⟩

/-- Outcome required after a transport-failure episode that hit a socket
whose captured retry index is i: connection reference cleared, connected
flag down, a single reconnect scheduled with the current back-off delay
and the advanced index, and the socket closed. -/
def afterFailure (st : SupState) (i : Nat) : Prop :=
  st.conn = false ∧ st.flag = false ∧ st.guard = true ∧
  st.pending = [(delayFor i, nextDelayIndex i)] ∧ st.phase = Phase.closed

/-- C7: every transport failure — connection refused (error then close),
connection reset or any other error on an established connection (error
then close), or a plain close — ends with the active connection
reference cleared and exactly one reconnect attempt scheduled with the
current back-off delay; the supervisor transition is total, so no
failure is fatal, and the only surfaced effects are the cleared
reference, the flag and the scheduled retry. -/
theorem transport_failure_recovery (st : SupState) (i : Nat) (h : Reachable st) :
    (st.phase = Phase.connecting i →
      afterFailure (runEvents st [Ev.errRefused, Ev.closeEv]) i) ∧
    (st.phase = Phase.connecting i ∨ st.phase = Phase.connected i →
      afterFailure (runEvents st [Ev.errOther, Ev.closeEv]) i) ∧
    (st.phase = Phase.connecting i ∨ st.phase = Phase.connected i →
      afterFailure (runEvents st [Ev.closeEv]) i) := by
  obtain ⟨c1, c2, c3, c4, c5, c6, c7, c8⟩ := reachable_inv st h
  refine ⟨?_, ?_, ?_⟩
  · intro hph
    obtain ⟨hg, hp, hf⟩ := c2 i hph
    unfold afterFailure runEvents
    simp [step, hph, scheduleReconnect, hg, hp]
  · intro hph
    rcases hph with hph | hph
    · obtain ⟨hg, hp, hf⟩ := c2 i hph
      unfold afterFailure runEvents
      simp [step, hph, scheduleReconnect, hg, hp]
    · obtain ⟨hg, hp, hi⟩ := c3 i hph
      unfold afterFailure runEvents
      simp [step, hph, scheduleReconnect, hg, hp]
  · intro hph
    rcases hph with hph | hph
    · obtain ⟨hg, hp, hf⟩ := c2 i hph
      unfold afterFailure runEvents
      simp [step, hph, scheduleReconnect, hg, hp]
    · obtain ⟨hg, hp, hi⟩ := c3 i hph
      unfold afterFailure runEvents
      simp [step, hph, scheduleReconnect, hg, hp]

/-- Witness for C7: a refused first connect attempt ends cleared and
scheduled, concretely with the 2s delay and next index 1. -/
theorem transport_failure_recovery_witness :
    afterFailure (runEvents initState [Ev.errRefused, Ev.closeEv]) 0 ∧
    (runEvents initState [Ev.errRefused, Ev.closeEv]).pending = [(2000, 1)] :=
  ⟨(transport_failure_recovery initState 0 Reachable.refl).1 rfl, by decide⟩

/-- C8: while a reconnect is already scheduled, no failure event
(refused error, other error, or close) schedules a second one or
creates another timer; only the timer firing or a successful connection
clears the guard; and in every reachable state at most one reconnect
timer is pending, with the guard set exactly while one is. -/
theorem reconnect_not_double_scheduled :
    (∀ (st : SupState) (e : Ev), st.guard = true →
      (e = Ev.errRefused ∨ e = Ev.errOther ∨ e = Ev.closeEv) →
      (step st e).pending = st.pending ∧ (step st e).guard = true) ∧
    (∀ (st : SupState) (e : Ev), st.guard = true → (step st e).guard = false →
      e = Ev.timerFire ∨ e = Ev.connectOk) ∧
    (∀ st : SupState, Reachable st →
      st.pending.length ≤ 1 ∧ (st.guard = true ↔ st.pending ≠ [])) := by
  refine ⟨?_, ?_, ?_⟩
  · intro st e hg he
    rcases he with rfl | rfl | rfl <;>
      cases hph : st.phase <;>
        simp [step, hph, scheduleReconnect, hg]
  · intro st e hg hg2
    cases e with
    | timerFire => exact Or.inl rfl
    | connectOk => exact Or.inr rfl
    | errRefused =>
      exfalso
      cases hph : st.phase <;> simp [step, hph, scheduleReconnect, hg] at hg2
    | errOther =>
      exfalso
      cases hph : st.phase <;> simp [step, hph, scheduleReconnect, hg] at hg2
    | closeEv =>
      exfalso
      cases hph : st.phase <;> simp [step, hph, scheduleReconnect, hg] at hg2
  · intro st hr
    obtain ⟨-, -, -, c4, c5, -, -, -⟩ := reachable_inv st hr
    exact ⟨c5, c4⟩

/-- Witness for C8: after a refused error scheduled a reconnect, the
racing close event of the same socket leaves the single pending timer
unchanged and the guard set; the start state has the guard clear and no
timer. -/
theorem reconnect_not_double_scheduled_witness :
    ((step (runEvents initState [Ev.errRefused]) Ev.closeEv).pending =
        (runEvents initState [Ev.errRefused]).pending ∧
      (step (runEvents initState [Ev.errRefused]) Ev.closeEv).guard = true) ∧
    (runEvents initState [Ev.errRefused]).guard = true ∧
    (initState.pending.length ≤ 1 ∧ (initState.guard = true ↔ initState.pending ≠ [])) :=
  ⟨reconnect_not_double_scheduled.1 (runEvents initState [Ev.errRefused]) Ev.closeEv
      (by decide) (Or.inr (Or.inr rfl)),
   by decide,
   reconnect_not_double_scheduled.2.2 initState Reachable.refl⟩

end VMixBridge
